import Mathlib

/-!
Verification of the JKKP inspection-tracker core (src/app.py) against its
specification.  The Python pipeline is shallowly embedded: dates are a
year/month/day structure with `dateutil.relativedelta`-style calendar
arithmetic, status cells are optional strings (a missing cell stringifies to
"nan" as `str(...)`/`astype(str)` do), and the pandas row operations become
`List.filter` over explicit records.
-/

namespace JKKP

/-- Calendar date, as Python `datetime.date` (year ≥ 1 in all inputs here). -/
structure Date where
  year : Nat
  month : Nat
  day : Nat
deriving DecidableEq, Repr

/-- Gregorian leap-year test, as `calendar.isleap` / `dateutil` use. -/
def isLeap (y : Nat) : Bool :=
  (y % 4 == 0 && y % 100 != 0) || y % 400 == 0

/-- Number of days in a month of a given year. -/
def daysInMonth (y m : Nat) : Nat :=
  if m == 2 then (if isLeap y then 29 else 28)
  else if m == 4 || m == 6 || m == 9 || m == 11 then 30
  else 31

/-- `d + relativedelta with a months offset of n`: shift the month, carrying into the
year, and clamp the day to the last valid day of the target month. -/
def addMonths (d : Date) (n : Nat) : Date :=
  let t := d.month - 1 + n
  let y := d.year + t / 12
  let m := t % 12 + 1
  ⟨y, m, min d.day (daysInMonth y m)⟩

/-- `d + relativedelta with a years offset of n`: shift the year and clamp the day
(Feb 29 → Feb 28 in a non-leap target year). -/
def addYears (d : Date) (n : Nat) : Date :=
  ⟨d.year + n, d.month, min d.day (daysInMonth (d.year + n) d.month)⟩

/-- Successor day in the calendar. -/
def nextDay (d : Date) : Date :=
  if d.day < daysInMonth d.year d.month then ⟨d.year, d.month, d.day + 1⟩
  else if d.month < 12 then ⟨d.year, d.month + 1, 1⟩
  else ⟨d.year + 1, 1, 1⟩

/-- `d + relativedelta with a two-week offset` is an exact day shift; we add days one at
a time. -/
def addDays (d : Date) (n : Nat) : Date :=
  Nat.iterate nextDay n d

/-- Days in the months strictly before month `m` (leap flag `l`). -/
def daysBeforeMonth (l : Bool) (m : Nat) : Nat :=
  let feb := if l then 29 else 28
  match m with
  | 1 => 0
  | 2 => 31
  | 3 => 31 + feb
  | 4 => 62 + feb
  | 5 => 92 + feb
  | 6 => 123 + feb
  | 7 => 153 + feb
  | 8 => 184 + feb
  | 9 => 215 + feb
  | 10 => 245 + feb
  | 11 => 276 + feb
  | _ => 306 + feb

/-- Proleptic-Gregorian ordinal day number (as `date.toordinal`), used to
embed the pandas datetime subtraction that yields `Days Left`. -/
def toOrdinal (d : Date) : Nat :=
  365 * (d.year - 1) + (d.year - 1) / 4 - (d.year - 1) / 100 + (d.year - 1) / 400
    + daysBeforeMonth (isLeap d.year) d.month + d.day

/-- Does `s` start with `t`? (character-list form of Python `startswith`). -/
def listStartsWith : List Char → List Char → Bool
  | _, [] => true
  | [], _ :: _ => false
  | a :: s, b :: t => a == b && listStartsWith s t

/-- Does `s` contain `t` as a contiguous substring? -/
def listContainsSub : List Char → List Char → Bool
  | [], t => listStartsWith [] t
  | a :: s, t => listStartsWith (a :: s) t || listContainsSub s t

/-- Python's `.upper()` on the ASCII texts this app handles, written over the
character list so that it reduces in the kernel. -/
def strUpper (s : String) : String :=
  ⟨s.data.map Char.toUpper⟩

/-- Python's `t in s` substring test on strings. -/
def hasSub (s t : String) : Bool :=
  listContainsSub s.data t.data

/-- `str(...)` / `astype(str)` on a nullable text cell: a missing value
(pandas `NaN`) stringifies to "nan". -/
def strOf : Option String → String
  | none => "nan"
  | some s => s

/-! ## HeaderLocator (`header_row` scan in the CSV and Excel branches) -/

/-- One preview row matches when some uppercased cell contains "ANNUAL" and
some (possibly different) uppercased cell contains "INSPECTION". -/
def rowMatches (r : List String) : Bool :=
  r.any (fun x => hasSub (strUpper x) "ANNUAL") &&
    r.any (fun x => hasSub (strUpper x) "INSPECTION")

/-- The scan loop: first matching row index wins, else the default. -/
def scanHeader (default : Nat) : Nat → List (List String) → Nat
  | _, [] => default
  | i, r :: rs => if rowMatches r then i else scanHeader default (i + 1) rs

/-- `header_row` of the CSV branch: default row 0. -/
def header_row_csv (preview : List (List String)) : Nat :=
  scanHeader 0 0 preview

/-- `header_row` of the Excel branch: default row 4. -/
def header_row_excel (preview : List (List String)) : Nat :=
  scanHeader 4 0 preview

/-- Anchor rule as the spec words it: a single cell containing both
"ANNUAL" and "INSPECTION", or a cell containing "TARIKH".  Kept separate
from `rowMatches` (the source's rule) to compare the two. -/
def specRowMatches (r : List String) : Bool :=
  r.any (fun x => hasSub (strUpper x) "ANNUAL" && hasSub (strUpper x) "INSPECTION") ||
    r.any (fun x => hasSub (strUpper x) "TARIKH")

/-- First row index satisfying the spec's anchor rule, if any. -/
def specFirstMatch (preview : List (List String)) : Option Nat :=
  preview.findIdx? specRowMatches

/-! ## ColumnResolver (`find_col`) -/

/-- The loop of `find_col`: skip a column whose uppercased label contains an
exclude term; return the index of the first remaining column whose label
contains an include term; else 0. -/
def findColAux (terms exclude_terms : List String) : Nat → List String → Nat
  | _, [] => 0
  | i, c :: cs =>
    let cUpper := strUpper c
    if exclude_terms.any (fun ex => hasSub cUpper ex) then
      findColAux terms exclude_terms (i + 1) cs
    else if terms.any (fun t => hasSub cUpper t) then i
    else findColAux terms exclude_terms (i + 1) cs

/-- `find_col(terms, exclude_terms)` over the column labels `cols`. -/
def find_col (cols terms exclude_terms : List String) : Nat :=
  findColAux terms exclude_terms 0 cols

/-! ## DefectClassifier (`categorize_defect`) -/

/-- The four defect categories returned by `categorize_defect`. -/
inductive DefectCat where
  | blank
  | no
  | yes
  | other
deriving DecidableEq, Repr

/-- Keywords whose presence classifies a status as "No". -/
def noKeywords : List String := ["NO DEFECT", "TIADA", "/", "SAFE", "OK", "GOOD"]

/-- Keywords whose presence classifies a status as "Yes". -/
def yesKeywords : List String := ["MAJOR", "MINOR", "NOTICE", "X", "YES", "ADA", "FAIL"]

/-- `categorize_defect`: Blank for null/empty/"NAN", else first keyword list
that matches the uppercased text wins (No before Yes), else Other. -/
def categorize_defect (val : Option String) : DefectCat :=
  let s := strUpper (strOf val)
  if val.isNone || val == some "" || s == "NAN" then .blank
  else if noKeywords.any (fun x => hasSub s x) then .no
  else if yesKeywords.any (fun x => hasSub s x) then .yes
  else .other

/-! ## DeadlineCalculator (`get_due_date`) and RemainingTimeComputer -/

/-- `get_due_date`: null date propagates; else the first matching status
keyword (MAJOR, MINOR, NOTICE, in that order) picks the offset, defaulting
to one calendar year. -/
def get_due_date (start : Option Date) (status : Option String) : Option Date :=
  let stat := strUpper (strOf status)
  match start with
  | none => none
  | some d =>
    if hasSub stat "MAJOR" then some (addMonths d 1)
    else if hasSub stat "MINOR" then some (addMonths d 3)
    else if hasSub stat "NOTICE" then some (addDays d 14)
    else some (addYears d 1)

/-- `Days Left` column: due date minus today in days, null propagating. -/
def daysLeftOf (due : Option Date) (today : Date) : Option Int :=
  due.map (fun dd => (toOrdinal dd : Int) - (toOrdinal today : Int))

/-! ## Processed records, FilterPipeline and AggregationReporter -/

/-- A row of the processed dataframe: the resolved raw columns plus the
derived `Defect Found?` and `Days Left` columns. -/
structure ProcRecord where
  inspectionDate : Option Date
  replyDate : Option Date
  status : Option String
  inspector : Option String
  defectFound : DefectCat
  dueDate : Option Date
  daysLeft : Option Int
deriving DecidableEq, Repr

/-- Build a processed row from the raw cells, deriving the computed columns
exactly as the script does. -/
def mkProc (insp reply : Option Date) (status inspector : Option String)
    (today : Date) : ProcRecord :=
  let due := get_due_date insp status
  { inspectionDate := insp
    replyDate := reply
    status := status
    inspector := inspector
    defectFound := categorize_defect status
    dueDate := due
    daysLeft := daysLeftOf due today }

/-- Pandas `series < x` on a nullable integer column: null compares false. -/
def optLt (o : Option Int) (x : Int) : Bool :=
  match o with
  | some d => decide (d < x)
  | none => false

/-- Pandas `series >= x` on a nullable integer column: null compares false. -/
def optGe (o : Option Int) (x : Int) : Bool :=
  match o with
  | some d => decide (x ≤ d)
  | none => false

/-- Pandas `series <= x` on a nullable integer column: null compares false. -/
def optLe (o : Option Int) (x : Int) : Bool :=
  match o with
  | some d => decide (d ≤ x)
  | none => false

/-- The `Reply Status` radio choices. -/
inductive ReplyMode where
  | all
  | replied
  | notReplied
deriving DecidableEq, Repr

/-- The `Deadline Buffer` slider choices. -/
inductive Buffer where
  | all
  | overdue
  | oneMonth
  | threeMonths
deriving DecidableEq, Repr

/-- Row predicate of the `Defect Found?` multiselect: empty selection passes
everything, else membership. -/
def p_yn (sel : List DefectCat) (r : ProcRecord) : Bool :=
  sel.isEmpty || sel.contains r.defectFound

/-- Row predicate of the `Inspection Category` multiselect: empty passes,
else case-insensitive containment of any selected label in the status text. -/
def p_cat (sel : List String) (r : ProcRecord) : Bool :=
  sel.isEmpty || sel.any (fun cat => hasSub (strUpper (strOf r.status)) (strUpper cat))

/-- Row predicate of the `Inspector Name` multiselect. -/
def p_insp (sel : List String) (r : ProcRecord) : Bool :=
  sel.isEmpty || sel.contains (strOf r.inspector)

/-- Row predicate of the `Reply Status` radio. -/
def p_reply (mode : ReplyMode) (r : ProcRecord) : Bool :=
  match mode with
  | .all => true
  | .replied => r.replyDate.isSome
  | .notReplied => r.replyDate.isNone

/-- Row predicate of the `Deadline Buffer` slider. -/
def p_buffer (b : Buffer) (r : ProcRecord) : Bool :=
  match b with
  | .all => true
  | .overdue => optLt r.daysLeft 0
  | .oneMonth => optGe r.daysLeft 0 && optLe r.daysLeft 30
  | .threeMonths => optGe r.daysLeft 0 && optLe r.daysLeft 90

/-- The buffer filter as the script writes it: `All` leaves the frame
untouched, the other buckets filter by the day bounds. -/
def f_buffer (b : Buffer) (rs : List ProcRecord) : List ProcRecord :=
  match b with
  | .all => rs
  | .overdue => rs.filter (fun r => optLt r.daysLeft 0)
  | .oneMonth => rs.filter (fun r => optGe r.daysLeft 0 && optLe r.daysLeft 30)
  | .threeMonths => rs.filter (fun r => optGe r.daysLeft 0 && optLe r.daysLeft 90)

/-- Sequential application of a list of row predicates, each one a pandas
boolean-mask filtering step. -/
def runFilters (ps : List (ProcRecord → Bool)) (rs : List ProcRecord) : List ProcRecord :=
  ps.foldl (fun acc p => acc.filter p) rs

/-- The three `st.metric` counts: filtered row total, rows classified Yes,
rows with negative `Days Left`. -/
def metrics (rs : List ProcRecord) : Nat × Nat × Nat :=
  (rs.length,
   (rs.filter (fun r => r.defectFound == DefectCat.yes)).length,
   (rs.filter (fun r => optLt r.daysLeft 0)).length)

/-- Count claimed by the spec's AggregationReporter but absent from the
source: rows whose status text contains "MAJOR". -/
def specMajorCount (rs : List ProcRecord) : Nat :=
  (rs.filter (fun r => hasSub (strUpper (strOf r.status)) "MAJOR")).length

/-- Is the label at index `j` skipped by `find_col` because an exclude term
occurs in its uppercased form? -/
def colExcluded (ex : List String) (c : String) : Bool :=
  ex.any (fun e => hasSub (strUpper c) e)

/-- Does the label match one of the include terms of `find_col`? -/
def colIncluded (terms : List String) (c : String) : Bool :=
  terms.any (fun t => hasSub (strUpper c) t)

/-- Record set exercising the aggregation counts: statuses "MAJOR",
"MAJOR OK" and "", inspected 2024-01-01 and evaluated on 2024-01-20. -/
def c6Rows : List ProcRecord :=
  [mkProc (some ⟨2024, 1, 1⟩) none (some "MAJOR") (some "A") ⟨2024, 1, 20⟩,
   mkProc (some ⟨2024, 1, 1⟩) none (some "MAJOR OK") (some "B") ⟨2024, 1, 20⟩,
   mkProc (some ⟨2024, 1, 1⟩) none (some "") (some "C") ⟨2024, 1, 20⟩]

/-- A record with a null inspection date, hence null due date and null
days-remaining. -/
def c7Row : ProcRecord :=
  mkProc none none (some "MAJOR") (some "A") ⟨2024, 1, 20⟩

/-- A fully populated record for exercising the filter pipeline. -/
def c8Row : ProcRecord :=
  mkProc (some ⟨2024, 1, 1⟩) none (some "MINOR") (some "Z") ⟨2024, 1, 20⟩

/-! ## Helper lemmas -/

/-- A non-null inspection date always produces a due date: every branch of
`get_due_date` is `some`-valued. -/
lemma get_due_date_isSome (d : Date) (status : Option String) :
    ∃ dd, get_due_date (some d) status = some dd := by
  unfold get_due_date
  dsimp only
  split_ifs <;> exact ⟨_, rfl⟩

/-- The header scan returns its default when no preview row matches. -/
lemma scanHeader_of_no_match (dflt : Nat) :
    ∀ (preview : List (List String)) (k : Nat),
      (∀ r ∈ preview, rowMatches r = false) →
      scanHeader dflt k preview = dflt := by
  intro preview
  induction preview with
  | nil => intro k _; rfl
  | cons r rs ih =>
    intro k h
    have hr : rowMatches r = false := h r (List.mem_cons_self r rs)
    have hrs : ∀ x ∈ rs, rowMatches x = false :=
      fun x hx => h x (List.mem_cons_of_mem r hx)
    simp only [scanHeader, hr, Bool.false_eq_true, if_false]
    exact ih (k + 1) hrs

/-- The header scan starting at `k` returns `k + i` when row `i` is the
first matching row. -/
lemma scanHeader_first_match (dflt : Nat) :
    ∀ (preview : List (List String)) (k i : Nat),
      i < preview.length →
      rowMatches (preview.getD i []) = true →
      (∀ j, j < i → rowMatches (preview.getD j []) = false) →
      scanHeader dflt k preview = k + i := by
  intro preview
  induction preview with
  | nil => intro k i hi; exact absurd hi (by simp)
  | cons r rs ih =>
    intro k i hi hmatch hfirst
    cases i with
    | zero =>
      simp only [List.getD_cons_zero] at hmatch
      simp [scanHeader, hmatch]
    | succ i' =>
      have hr : rowMatches r = false := by
        have := hfirst 0 (Nat.succ_pos i')
        simpa using this
      simp only [scanHeader, hr, Bool.false_eq_true, if_false]
      have hlen : i' < rs.length := by simpa using hi
      have hm' : rowMatches (rs.getD i' []) = true := by simpa using hmatch
      have hf' : ∀ j, j < i' → rowMatches (rs.getD j []) = false := by
        intro j hj
        have := hfirst (j + 1) (Nat.succ_lt_succ hj)
        simpa using this
      rw [ih (k + 1) i' hlen hm' hf']
      omega

/-- The column scan starting at `k` returns `k + i` when column `i` is the
first non-excluded column matching an include term. -/
lemma findColAux_first_match (terms ex : List String) :
    ∀ (cols : List String) (k i : Nat),
      i < cols.length →
      colExcluded ex (cols.getD i "") = false →
      colIncluded terms (cols.getD i "") = true →
      (∀ j, j < i →
        colExcluded ex (cols.getD j "") = true ∨
          colIncluded terms (cols.getD j "") = false) →
      findColAux terms ex k cols = k + i := by
  intro cols
  induction cols with
  | nil => intro k i hi; exact absurd hi (by simp)
  | cons c cs ih =>
    intro k i hi hex hinc hfirst
    cases i with
    | zero =>
      simp only [List.getD_cons_zero] at hex hinc
      unfold colExcluded at hex
      unfold colIncluded at hinc
      simp [findColAux, hex, hinc]
    | succ i' =>
      have h0 := hfirst 0 (Nat.succ_pos i')
      simp only [List.getD_cons_zero] at h0
      have hlen : i' < cs.length := by simpa using hi
      have hex' : colExcluded ex (cs.getD i' "") = false := by simpa using hex
      have hinc' : colIncluded terms (cs.getD i' "") = true := by simpa using hinc
      have hf' : ∀ j, j < i' →
          colExcluded ex (cs.getD j "") = true ∨
            colIncluded terms (cs.getD j "") = false := by
        intro j hj
        have := hfirst (j + 1) (Nat.succ_lt_succ hj)
        simpa using this
      have hrec : findColAux terms ex (k + 1) cs = (k + 1) + i' :=
        ih (k + 1) i' hlen hex' hinc' hf'
      rcases h0 with h0 | h0
      · unfold colExcluded at h0
        simp only [findColAux, h0, if_true]
        omega
      · unfold colIncluded at h0
        unfold findColAux
        dsimp only
        split_ifs with hsk hin
        · rw [hrec]; omega
        · exact absurd hin (by simp [h0])
        · rw [hrec]; omega

/-- The column scan returns 0 when every column is excluded or fails the
include terms. -/
lemma findColAux_no_match (terms ex : List String) :
    ∀ (cols : List String) (k : Nat),
      (∀ c ∈ cols,
        colExcluded ex c = true ∨ colIncluded terms c = false) →
      findColAux terms ex k cols = 0 := by
  intro cols
  induction cols with
  | nil => intro k _; rfl
  | cons c cs ih =>
    intro k h
    have hc := h c (List.mem_cons_self c cs)
    have hcs : ∀ x ∈ cs, colExcluded ex x = true ∨ colIncluded terms x = false :=
      fun x hx => h x (List.mem_cons_of_mem c hx)
    rcases hc with hc | hc
    · unfold colExcluded at hc
      simp only [findColAux, hc, if_true]
      exact ih (k + 1) hcs
    · unfold colIncluded at hc
      unfold findColAux
      dsimp only
      split_ifs with hsk hin
      · exact ih (k + 1) hcs
      · exact absurd hin (by simp [hc])
      · exact ih (k + 1) hcs

/-- `all` over a list of predicates is invariant under permutation. -/
lemma perm_all_eq {α : Type} {l₁ l₂ : List α} (h : List.Perm l₁ l₂) (f : α → Bool) :
    l₁.all f = l₂.all f := by
  induction h with
  | nil => rfl
  | cons x _ ih => simp [List.all_cons, ih]
  | swap x y l => simp only [List.all_cons, ← Bool.and_assoc, Bool.and_comm (f y) (f x)]
  | trans _ _ ih₁ ih₂ => exact ih₁.trans ih₂

/-- Sequentially filtering by each predicate equals one filter by their
conjunction. -/
lemma runFilters_eq_filter_all :
    ∀ (ps : List (ProcRecord → Bool)) (rs : List ProcRecord),
      runFilters ps rs = rs.filter (fun r => ps.all (fun p => p r)) := by
  intro ps
  induction ps with
  | nil => intro rs; simp [runFilters]
  | cons p ps ih =>
    intro rs
    show runFilters ps (rs.filter p) = _
    rw [ih (rs.filter p), List.filter_filter]
    simp [List.all_cons, Bool.and_comm]

/-! ## Claims -/

/-- C1: for a non-null inspection date, `get_due_date` applies the first
matching rule over the uppercased status text — "MAJOR" gives +1 calendar
month, else "MINOR" gives +3 calendar months, else "NOTICE" gives +14 days,
else +1 calendar year; month offsets clamp (Jan 31 + 1 month is the last
valid day of February), and a null inspection date gives a null due date. -/
theorem S2P_C1_deadline_rules (d : Date) (status : Option String) :
    get_due_date none status = none
    ∧ (hasSub (strUpper (strOf status)) "MAJOR" = true →
        get_due_date (some d) status = some (addMonths d 1))
    ∧ (hasSub (strUpper (strOf status)) "MAJOR" = false →
        hasSub (strUpper (strOf status)) "MINOR" = true →
        get_due_date (some d) status = some (addMonths d 3))
    ∧ (hasSub (strUpper (strOf status)) "MAJOR" = false →
        hasSub (strUpper (strOf status)) "MINOR" = false →
        hasSub (strUpper (strOf status)) "NOTICE" = true →
        get_due_date (some d) status = some (addDays d 14))
    ∧ (hasSub (strUpper (strOf status)) "MAJOR" = false →
        hasSub (strUpper (strOf status)) "MINOR" = false →
        hasSub (strUpper (strOf status)) "NOTICE" = false →
        get_due_date (some d) status = some (addYears d 1))
    ∧ addMonths ⟨2023, 1, 31⟩ 1 = ⟨2023, 2, 28⟩
    ∧ addMonths ⟨2024, 1, 31⟩ 1 = ⟨2024, 2, 29⟩ := by
  refine ⟨rfl, ?_, ?_, ?_, ?_, by decide, by decide⟩
  · intro h1
    simp [get_due_date, h1]
  · intro h1 h2
    simp [get_due_date, h1, h2]
  · intro h1 h2 h3
    simp [get_due_date, h1, h2, h3]
  · intro h1 h2 h3
    simp [get_due_date, h1, h2, h3]

/-- C1 witness: the spec's scenario, status "MAJOR DEFECT FOUND" on
2024-01-15 is due 2024-02-15. -/
theorem S2P_C1_witness :
    get_due_date (some ⟨2024, 1, 15⟩) (some "MAJOR DEFECT FOUND")
      = some ⟨2024, 2, 15⟩ := by
  have h := (S2P_C1_deadline_rules ⟨2024, 1, 15⟩ (some "MAJOR DEFECT FOUND")).2.1
    (by decide)
  exact h.trans (by decide)

/-- C2: the null-propagation invariant — the inspection date is null iff the
due date is null, and the due date is null iff the days-remaining value is
null. -/
theorem S2P_C2_null_invariant (insp : Option Date) (status : Option String)
    (today : Date) :
    ((insp = none) ↔ (get_due_date insp status = none))
    ∧ ((get_due_date insp status = none)
        ↔ (daysLeftOf (get_due_date insp status) today = none)) := by
  cases insp with
  | none => simp [get_due_date, daysLeftOf]
  | some d =>
    obtain ⟨dd, hdd⟩ := get_due_date_isSome d status
    rw [hdd]
    simp [daysLeftOf]

/-- C3: `categorize_defect` is total over {Blank, No, Yes, Other} and applies
its rules with fixed priority Blank > No > Yes > Other; a text matching both
a No-keyword and a Yes-keyword classifies as No. -/
theorem S2P_C3_classifier_rules (val : Option String) :
    (categorize_defect val = .blank ∨ categorize_defect val = .no
      ∨ categorize_defect val = .yes ∨ categorize_defect val = .other)
    ∧ ((val.isNone || val == some "" || strUpper (strOf val) == "NAN") = true →
        categorize_defect val = .blank)
    ∧ ((val.isNone || val == some "" || strUpper (strOf val) == "NAN") = false →
        noKeywords.any (fun x => hasSub (strUpper (strOf val)) x) = true →
        categorize_defect val = .no)
    ∧ ((val.isNone || val == some "" || strUpper (strOf val) == "NAN") = false →
        noKeywords.any (fun x => hasSub (strUpper (strOf val)) x) = false →
        yesKeywords.any (fun x => hasSub (strUpper (strOf val)) x) = true →
        categorize_defect val = .yes)
    ∧ ((val.isNone || val == some "" || strUpper (strOf val) == "NAN") = false →
        noKeywords.any (fun x => hasSub (strUpper (strOf val)) x) = false →
        yesKeywords.any (fun x => hasSub (strUpper (strOf val)) x) = false →
        categorize_defect val = .other)
    ∧ ((val.isNone || val == some "" || strUpper (strOf val) == "NAN") = false →
        noKeywords.any (fun x => hasSub (strUpper (strOf val)) x) = true →
        yesKeywords.any (fun x => hasSub (strUpper (strOf val)) x) = true →
        categorize_defect val = .no) := by
  refine ⟨?_, ?_, ?_, ?_, ?_, ?_⟩
  · unfold categorize_defect
    dsimp only
    split_ifs <;> simp
  · intro h1
    simp [categorize_defect, h1]
  · intro h1 h2
    simp [categorize_defect, h1, h2]
  · intro h1 h2 h3
    simp [categorize_defect, h1, h2, h3]
  · intro h1 h2 h3
    simp [categorize_defect, h1, h2, h3]
  · intro h1 h2 _
    simp [categorize_defect, h1, h2]

/-- C3 witness: "MAJOR OK" contains the Yes-keyword "MAJOR" and the
No-keyword "OK"; the priority order classifies it as No. -/
theorem S2P_C3_witness : categorize_defect (some "MAJOR OK") = DefectCat.no :=
  (S2P_C3_classifier_rules (some "MAJOR OK")).2.2.2.2.2
    (by decide) (by decide) (by decide)

/-- C4 counterexample: a preview whose only cell is "TARIKH PEMERIKSAAN"
satisfies the spec's anchor rule at row 0, but the Excel-branch scan has no
TARIKH rule and falls back to its default row 4. -/
theorem S2P_C4_counterexample :
    specRowMatches ["TARIKH PEMERIKSAAN"] = true
    ∧ specFirstMatch [["TARIKH PEMERIKSAAN"]] = some 0
    ∧ header_row_excel [["TARIKH PEMERIKSAAN"]] = 4
    ∧ (4 : Nat) ≠ 0 := by
  refine ⟨by decide, by decide, by decide, by decide⟩

/-- C4 amended: the header scan selects the first preview row having some
cell containing "ANNUAL" and some (possibly different) cell containing
"INSPECTION" after uppercasing; there is no "TARIKH" anchor in the source.
It is total, and a preview whose only matching row is index 3 yields 3
(witnessed with the cell "Annual Inspection Date"). -/
theorem S2P_C4_header_first_match (preview : List (List String)) (i : Nat)
    (hi : i < preview.length)
    (hmatch : rowMatches (preview.getD i []) = true)
    (hfirst : ∀ j, j < i → rowMatches (preview.getD j []) = false) :
    header_row_csv preview = i ∧ header_row_excel preview = i := by
  constructor
  · rw [header_row_csv, scanHeader_first_match 0 preview 0 i hi hmatch hfirst]
    omega
  · rw [header_row_excel, scanHeader_first_match 4 preview 0 i hi hmatch hfirst]
    omega

/-- C4 witness: the spec's scenario, a preview where only row index 3 holds
a cell "Annual Inspection Date", returns 3. -/
theorem S2P_C4_witness :
    header_row_csv [["junk"], ["memo"], ["blank"], ["Annual Inspection Date"]] = 3 :=
  (S2P_C4_header_first_match
    [["junk"], ["memo"], ["blank"], ["Annual Inspection Date"]] 3
    (by decide) (by decide) (by decide)).1

/-- C5 counterexample: "MAJOR MINOR" contains "MINOR", yet the MAJOR rule
fires first, so the due date is one month out (2024-02-15), not the three
months (2024-04-15) the claim requires for every MINOR-containing status. -/
theorem S2P_C5_counterexample :
    hasSub (strUpper (strOf (some "MAJOR MINOR"))) "MINOR" = true
    ∧ get_due_date (some ⟨2024, 1, 15⟩) (some "MAJOR MINOR")
        = some ⟨2024, 2, 15⟩
    ∧ addMonths ⟨2024, 1, 15⟩ 3 = ⟨2024, 4, 15⟩
    ∧ some (Date.mk 2024 2 15) ≠ some (Date.mk 2024 4 15) := by
  refine ⟨by decide, by decide, by decide, by decide⟩

/-- C5 amended: for a non-null inspection date whose status contains
"MINOR" but not "MAJOR", the due date is the inspection date plus three
calendar months. -/
theorem S2P_C5_minor_rule (d : Date) (status : Option String)
    (hmaj : hasSub (strUpper (strOf status)) "MAJOR" = false)
    (hmin : hasSub (strUpper (strOf status)) "MINOR" = true) :
    get_due_date (some d) status = some (addMonths d 3) := by
  simp [get_due_date, hmaj, hmin]

/-- C5 witness: a plain minor defect on 2024-01-15 is due 2024-04-15. -/
theorem S2P_C5_witness :
    get_due_date (some ⟨2024, 1, 15⟩) (some "minor crack")
      = some ⟨2024, 4, 15⟩ := by
  have h := S2P_C5_minor_rule ⟨2024, 1, 15⟩ (some "minor crack")
    (by decide) (by decide)
  exact h.trans (by decide)

/-- C9: `find_col` scans labels in order, skips labels whose uppercased
text contains an exclude term, returns the index of the first remaining
label containing an include term, and returns 0 when no label qualifies. -/
theorem S2P_C9_find_col (cols terms ex : List String) (i : Nat) :
    (i < cols.length →
      colExcluded ex (cols.getD i "") = false →
      colIncluded terms (cols.getD i "") = true →
      (∀ j, j < i →
        colExcluded ex (cols.getD j "") = true ∨
          colIncluded terms (cols.getD j "") = false) →
      find_col cols terms ex = i)
    ∧ ((∀ c ∈ cols,
          colExcluded ex c = true ∨ colIncluded terms c = false) →
        find_col cols terms ex = 0) := by
  constructor
  · intro hi hex hinc hfirst
    rw [find_col, findColAux_first_match terms ex cols 0 i hi hex hinc hfirst]
    omega
  · intro h
    rw [find_col, findColAux_no_match terms ex cols 0 h]

/-- C9 witness: the spec's scenario — headers ["ID", "1st Schedule Annual
Inspection", "Annual Inspection Date", "Status"] with include ["ANNUAL"] and
exclude ["1ST SCHEDULE"] resolve to index 2. -/
theorem S2P_C9_witness :
    find_col ["ID", "1st Schedule Annual Inspection",
        "Annual Inspection Date", "Status"] ["ANNUAL"] ["1ST SCHEDULE"] = 2 :=
  (S2P_C9_find_col ["ID", "1st Schedule Annual Inspection",
      "Annual Inspection Date", "Status"] ["ANNUAL"] ["1ST SCHEDULE"] 2).1
    (by decide) (by decide) (by decide) (by decide)

/-- C10: when no preview row matches the anchor, the CSV branch returns
header row 0 and the Excel branch returns header row 4 — the default is
format-dependent. -/
theorem S2P_C10_format_defaults (preview : List (List String))
    (h : ∀ r ∈ preview, rowMatches r = false) :
    header_row_csv preview = 0
    ∧ header_row_excel preview = 4
    ∧ header_row_excel preview ≠ header_row_csv preview := by
  have hcsv : header_row_csv preview = 0 :=
    scanHeader_of_no_match 0 preview 0 h
  have hxl : header_row_excel preview = 4 :=
    scanHeader_of_no_match 4 preview 0 h
  refine ⟨hcsv, hxl, ?_⟩
  rw [hcsv, hxl]
  decide

/-- C10 witness: a preview of plain text rows matches nothing, so the CSV
default 0 and the Excel default 4 both appear. -/
theorem S2P_C10_witness :
    header_row_csv [["laporan"], ["senarai"]] = 0
    ∧ header_row_excel [["laporan"], ["senarai"]] = 4 := by
  have h := S2P_C10_format_defaults [["laporan"], ["senarai"]] (by decide)
  exact ⟨h.1, h.2.1⟩

/-- C6 counterexample: the dashboard shows exactly three metrics — total,
Yes-count and overdue-count.  On `c6Rows` those are (3, 1, 0) while the
MAJOR-count the claim adds as a fourth metric is 2, which equals none of
the reported numbers. -/
theorem S2P_C6_counterexample :
    metrics c6Rows = (3, 1, 0)
    ∧ specMajorCount c6Rows = 2
    ∧ ((2 : Nat) ≠ 3 ∧ (2 : Nat) ≠ 1 ∧ (2 : Nat) ≠ 0) := by
  refine ⟨by decide, by decide, by decide⟩

/-- C6 amended: the aggregation is a pure function of the filtered record
set returning three counts — total rows, rows classified Yes, and rows with
negative days remaining (nulls not counted); there is no MAJOR-count metric
in the source. -/
theorem S2P_C6_metrics (rs : List ProcRecord) :
    metrics rs = (rs.length,
      rs.countP (fun r => r.defectFound == DefectCat.yes),
      rs.countP (fun r => optLt r.daysLeft 0)) := by
  simp [metrics, List.countP_eq_length_filter]

/-- C7: the buffer buckets select exactly by days remaining — Overdue keeps
`d < 0`, OneMonth keeps `0 ≤ d ≤ 30`, ThreeMonths keeps `0 ≤ d ≤ 90`, rows
with null days remaining fall out of every bucket except All, and All is a
pass-through. -/
theorem S2P_C7_buffer_filter (rs : List ProcRecord) (r : ProcRecord) :
    f_buffer .all rs = rs
    ∧ (r ∈ f_buffer .overdue rs ↔ r ∈ rs ∧ ∃ d, r.daysLeft = some d ∧ d < 0)
    ∧ (r ∈ f_buffer .oneMonth rs
        ↔ r ∈ rs ∧ ∃ d, r.daysLeft = some d ∧ 0 ≤ d ∧ d ≤ 30)
    ∧ (r ∈ f_buffer .threeMonths rs
        ↔ r ∈ rs ∧ ∃ d, r.daysLeft = some d ∧ 0 ≤ d ∧ d ≤ 90)
    ∧ (∀ b : Buffer, b ≠ .all → r.daysLeft = none → r ∉ f_buffer b rs) := by
  refine ⟨rfl, ?_, ?_, ?_, ?_⟩
  · cases hd : r.daysLeft with
    | none => simp [f_buffer, List.mem_filter, optLt, hd]
    | some d => simp [f_buffer, List.mem_filter, optLt, hd]
  · cases hd : r.daysLeft with
    | none => simp [f_buffer, List.mem_filter, optLt, optGe, optLe, hd]
    | some d =>
      simp [f_buffer, List.mem_filter, optLt, optGe, optLe, hd, and_assoc]
  · cases hd : r.daysLeft with
    | none => simp [f_buffer, List.mem_filter, optLt, optGe, optLe, hd]
    | some d =>
      simp [f_buffer, List.mem_filter, optLt, optGe, optLe, hd, and_assoc]
  · intro b hb hnone
    cases b with
    | all => exact absurd rfl hb
    | overdue => simp [f_buffer, List.mem_filter, optLt, hnone]
    | oneMonth => simp [f_buffer, List.mem_filter, optLt, optGe, optLe, hnone]
    | threeMonths => simp [f_buffer, List.mem_filter, optLt, optGe, optLe, hnone]

/-- C7 witness: a record with null days remaining is excluded from the
Overdue bucket. -/
theorem S2P_C7_witness : c7Row ∉ f_buffer Buffer.overdue [c7Row] :=
  (S2P_C7_buffer_filter [c7Row] c7Row).2.2.2.2 Buffer.overdue
    (by decide) (by decide)

/-- C8: the five sidebar filters are row-local predicates; applying them
sequentially in any order gives the same result as one filter by their
conjunction, and each filter with an empty selection (or mode All) passes
every row through. -/
theorem S2P_C8_filter_pipeline (selYn : List DefectCat)
    (selCat selInsp : List String) (mode : ReplyMode) (b : Buffer)
    (rs : List ProcRecord) (ps qs : List (ProcRecord → Bool))
    (hps : ps.Perm [p_yn selYn, p_cat selCat, p_insp selInsp,
      p_reply mode, p_buffer b])
    (hqs : qs.Perm [p_yn selYn, p_cat selCat, p_insp selInsp,
      p_reply mode, p_buffer b]) :
    runFilters ps rs = runFilters qs rs
    ∧ runFilters [p_yn selYn, p_cat selCat, p_insp selInsp,
        p_reply mode, p_buffer b] rs
      = rs.filter (fun r => p_yn selYn r && p_cat selCat r && p_insp selInsp r
          && p_reply mode r && p_buffer b r)
    ∧ rs.filter (p_yn []) = rs
    ∧ rs.filter (p_cat []) = rs
    ∧ rs.filter (p_insp []) = rs
    ∧ rs.filter (p_reply .all) = rs
    ∧ f_buffer .all rs = rs := by
  refine ⟨?_, ?_, ?_, ?_, ?_, ?_, rfl⟩
  · have hall : (fun r => ps.all (fun p => p r))
        = (fun r => qs.all (fun p => p r)) :=
      funext fun r => perm_all_eq (hps.trans hqs.symm) (fun p => p r)
    rw [runFilters_eq_filter_all, runFilters_eq_filter_all, hall]
  · rw [runFilters_eq_filter_all]
    congr 1
    funext r
    simp [Bool.and_assoc]
  · simp [p_yn]
  · simp [p_cat]
  · simp [p_insp]
  · simp [p_reply]

/-- C8 witness: swapping the first two filters leaves the filtered set
unchanged on a concrete record set. -/
theorem S2P_C8_witness :
    runFilters [p_yn [], p_cat [], p_insp [], p_reply .all, p_buffer .all]
        [c8Row]
      = runFilters [p_cat [], p_yn [], p_insp [], p_reply .all, p_buffer .all]
        [c8Row] :=
  (S2P_C8_filter_pipeline [] [] [] .all .all [c8Row]
    [p_yn [], p_cat [], p_insp [], p_reply .all, p_buffer .all]
    [p_cat [], p_yn [], p_insp [], p_reply .all, p_buffer .all]
    (List.Perm.refl _)
    (List.Perm.swap (p_yn []) (p_cat []) _)).1

end JKKP
